import Mathlib

/-!
Verification development for the `gh-loc-report` tool (`gh-loc-report.js`).

The program is a sequential script that, for a GitHub user and a calendar
year, lists repositories, pages through each repository's commits, fetches
per-commit statistics with bounded retry, filters files through a list of
exclusion patterns, and accumulates global totals into a results record
that is printed and persisted.

The shallow embedding below translates the functions of `gh-loc-report.js`
into pure Lean definitions.  Effects are made explicit:

* the remote API is an oracle parameter (`Nat → Except ApiError _`,
  indexed by page number for pagination, by attempt number for retries);
* wall-clock time is an explicit `now : Nat` (milliseconds) parameter;
* sleeps are returned as data (durations in milliseconds);
* the in-place mutation performed by `Array.prototype.sort` inside the
  report functions is modelled by returning the updated record.

JavaScript numbers are modelled by `Nat` / `Int`; the only divisions the
script performs are re-expressed with denominators cleared (documented at
the definition), so no floating point is involved.
-/

namespace GhLoc

/-! ## String pattern helpers

`shouldIncludeFile` in the source tests a filename against a list of
regular expressions.  Every one of those regexes is either a suffix match
(`/pat$/`), a prefix match (`/^pat/`), or an unanchored substring match
(`/pat/`), with all metacharacters escaped, so each is translated into the
corresponding exact-string test on the character list. -/

/-- `strEndsWith s pat` holds when `pat` is a suffix of `s`
(the translation of an end-anchored regex `/pat$/`). -/
def strEndsWith (s pat : String) : Bool :=
  List.isSuffixOf pat.data s.data

/-- `strStartsWith s pat` holds when `pat` is a prefix of `s`
(the translation of a start-anchored regex `/^pat/`). -/
def strStartsWith (s pat : String) : Bool :=
  List.isPrefixOf pat.data s.data

/-- `containsAux pat l` holds when `pat` occurs as a contiguous block
somewhere inside `l`. -/
def containsAux (pat : List Char) : List Char → Bool
  | [] => List.isPrefixOf pat []
  | c :: rest => List.isPrefixOf pat (c :: rest) || containsAux pat rest

/-- `strContainsSub s pat` holds when `pat` occurs anywhere inside `s`
(the translation of an unanchored regex `/pat/`). -/
def strContainsSub (s pat : String) : Bool :=
  containsAux pat.data s.data

/-! ## File Classifier (`shouldIncludeFile`, source lines 303-355) -/

/-- The `excludePatterns` array of `shouldIncludeFile`, one Lean predicate
per JavaScript regular expression, in source order. -/
def excludePatterns : List (String → Bool) :=
  [ -- lock files
    fun f => strEndsWith f "package-lock.json",
    fun f => strEndsWith f "yarn.lock",
    fun f => strEndsWith f "pnpm-lock.yaml",
    fun f => strEndsWith f "composer.lock",
    fun f => strEndsWith f "Gemfile.lock",
    fun f => strEndsWith f "poetry.lock",
    fun f => strEndsWith f "Pipfile.lock",
    -- minified files
    fun f => strEndsWith f ".min.js" || strEndsWith f ".min.css",
    fun f => strEndsWith f ".bundle.js" || strEndsWith f ".bundle.css",
    -- source maps
    fun f => strEndsWith f ".map",
    -- build/dist directories
    fun f => strStartsWith f "dist/" || strStartsWith f "build/" ||
      strStartsWith f "out/" || strStartsWith f "target/" ||
      strStartsWith f "bin/" || strStartsWith f "obj/",
    fun f => strContainsSub f "node_modules/",
    fun f => strContainsSub f "vendor/",
    fun f => strContainsSub f "__pycache__/",
    fun f => strContainsSub f ".pytest_cache/",
    -- generated files
    fun f => strContainsSub f ".generated.",
    fun f => strContainsSub f ".auto.",
    fun f => strStartsWith f "generated/",
    -- documentation builds
    fun f => strStartsWith f "docs/_build/",
    fun f => strStartsWith f "site/",
    -- IDE files
    fun f => strContainsSub f ".vscode/",
    fun f => strContainsSub f ".idea/",
    -- binary/media extensions
    fun f => strEndsWith f ".jpg" || strEndsWith f ".jpeg" ||
      strEndsWith f ".png" || strEndsWith f ".gif" ||
      strEndsWith f ".svg" || strEndsWith f ".ico" ||
      strEndsWith f ".pdf" || strEndsWith f ".zip" ||
      strEndsWith f ".tar" || strEndsWith f ".gz" ||
      strEndsWith f ".rar" || strEndsWith f ".7z" ||
      strEndsWith f ".exe" || strEndsWith f ".dmg",
    fun f => strEndsWith f ".mp4" || strEndsWith f ".avi" ||
      strEndsWith f ".mov" || strEndsWith f ".wmv" ||
      strEndsWith f ".mp3" || strEndsWith f ".wav" ||
      strEndsWith f ".ogg",
    -- database files
    fun f => strEndsWith f ".db" || strEndsWith f ".sqlite" ||
      strEndsWith f ".sqlite3",
    -- log files
    fun f => strEndsWith f ".log" || strEndsWith f ".logs",
    fun f => strStartsWith f "logs/" ]

/-- `shouldIncludeFile` (source lines 303-355): include a file unless some
exclusion pattern matches (`!excludePatterns.some(p => p.test(filename))`). -/
def shouldIncludeFile (filename : String) : Bool :=
  ! excludePatterns.any (fun p => p filename)

/-! ## Throttled API Client (`rateLimitCheck`, source lines 21-45)

State: `requestCount` and the process `startTime` (ms).  The current time
is the explicit parameter `now`.  The function increments the counter,
then

* computes `requestsPerHour = count / elapsedHours` and, when it exceeds
  `maxRequestsPerHour`, sleeps for
  `waitTime = (count / maxRequestsPerHour) * 3600000 - elapsedMs`
  if that is positive;
* always sleeps a base delay of `150` ms once `count > 100`, else `100` ms.

The comparison `count / (elapsedMs / 3600000) > maxRequestsPerHour` is
represented with denominators cleared as
`count * 3600000 > maxRequestsPerHour * elapsedMs`; for `elapsedMs > 0`
this is the same inequality, and for `elapsedMs = 0` it is `True`, which
matches JavaScript, where the division yields `Infinity`.  The wait time
`(count / 4800) * 3600000 - elapsedMs` is exactly `count * 750 - elapsedMs`
since `3600000 / 4800 = 750`. -/

/-- `this.maxRequestsPerHour` (source line 17). -/
def maxRequestsPerHour : Nat := 4800

/-- The mutable fields of `GitHubLOCCalculator` that `rateLimitCheck`
touches. -/
structure ThrottleState where
  requestCount : Nat
  startTime : Nat
deriving DecidableEq

/-- The rate-limit condition `requestsPerHour > maxRequestsPerHour` of
source line 28, with denominators cleared (see the section comment). -/
def rateCond (s : ThrottleState) (now : Nat) : Prop :=
  ((s.requestCount + 1 : Nat) : Int) * 3600000 >
    (maxRequestsPerHour : Int) * ((now : Int) - (s.startTime : Int))

instance (s : ThrottleState) (now : Nat) : Decidable (rateCond s now) := by
  unfold rateCond; infer_instance

/-- The wait time of source line 29:
`(count / maxRequestsPerHour) * 3600000 - elapsedMs = count * 750 - elapsedMs`. -/
def rateWaitTime (s : ThrottleState) (now : Nat) : Int :=
  ((s.requestCount + 1 : Nat) : Int) * 750 - ((now : Int) - (s.startTime : Int))

/-- `rateLimitCheck` (source lines 21-45).  Returns the updated state, the
rate-limit sleep in ms (`0` when none is performed), and the base delay in
ms that is always slept afterwards. -/
def rateLimitCheck (s : ThrottleState) (now : Nat) : ThrottleState × Int × Nat :=
  let count := s.requestCount + 1
  let rateWait : Int :=
    if rateCond s now ∧ rateWaitTime s now > 0 then rateWaitTime s now else 0
  let baseDelay : Nat := if count > 100 then 150 else 100
  ({ s with requestCount := count }, rateWait, baseDelay)

/-- Iterated calls to `rateLimitCheck` at the given sequence of clock
readings; returns the (rate-limit sleep, base delay) pair of each call. -/
def throttleRun : ThrottleState → List Nat → List (Int × Nat)
  | _, [] => []
  | s, now :: rest =>
    let r := rateLimitCheck s now
    (r.2.1, r.2.2) :: throttleRun r.1 rest

/-- `noExceed s nows`: along the run `throttleRun s nows`, no call finds
the implied sustained rate above the ceiling. -/
def noExceed : ThrottleState → List Nat → Prop
  | _, [] => True
  | s, now :: rest => ¬ rateCond s now ∧ noExceed (rateLimitCheck s now).1 rest

/-! ## Commit Stat Fetcher (`getCommitStatsWithRetry`, source lines 253-301)

The remote `octokit.rest.repos.getCommit` call is an oracle
`fetch : Nat → Except ApiError RawCommitResponse` indexed by the attempt
number, so that transient failures can be expressed.  The function below
also returns the list of backoff sleeps (ms) it performed, in order. -/

/-- An error thrown by an API call; `status` is the HTTP status when one
is attached (`error.status` in the source, `none` for e.g. network
errors). -/
structure ApiError where
  status : Option Nat
  message : String
deriving DecidableEq

/-- `response.data.stats` of a get-commit response. -/
structure RawStats where
  additions : Nat
  deletions : Nat
  total : Nat
deriving DecidableEq

/-- One entry of `response.data.files`. -/
structure RawFile where
  filename : String
  additions : Nat
  deletions : Nat
deriving DecidableEq

/-- The body of a successful get-commit response; `stats` and `files` may
be absent (`response.data.stats || {...}`, `response.data.files || []`). -/
structure RawCommitResponse where
  stats : Option RawStats
  files : Option (List RawFile)
deriving DecidableEq

/-- The record returned by `getCommitStatsWithRetry`. -/
structure CommitStats where
  additions : Nat
  deletions : Nat
  total : Nat
  files : List RawFile
  truncated : Bool
deriving DecidableEq

/-- The zero-valued stats returned on a non-retryable error and on retry
exhaustion (source lines 289 and 294). -/
def zeroStats : CommitStats :=
  { additions := 0, deletions := 0, total := 0, files := [], truncated := false }

/-- The success path of `getCommitStatsWithRetry` (source lines 264-284):
default the stats and file list, and flag truncation when the file list
has at least 300 entries or the total change count exceeds 50000. -/
def mkCommitStats (resp : RawCommitResponse) : CommitStats :=
  let stats := resp.stats.getD { additions := 0, deletions := 0, total := 0 }
  let files := resp.files.getD []
  { additions := stats.additions
    deletions := stats.deletions
    total := stats.total
    files := files
    truncated := decide (files.length ≥ 300) || decide (stats.total > 50000) }

/-- `error.status === 409 || error.status === 404` (source line 286). -/
def nonRetryable (e : ApiError) : Prop :=
  e.status = some 409 ∨ e.status = some 404

instance (e : ApiError) : Decidable (nonRetryable e) := by
  unfold nonRetryable; infer_instance

/-- The retry loop of `getCommitStatsWithRetry`, unrolled on a fuel that
counts the remaining iterations (`fuel = maxRetries - attempt + 1` at
every call, so the fuel-exhausted branch is never reached from
`getCommitStatsWithRetry`).  Returns the stats together with the backoff
sleeps performed (`2000 * attempt` ms after an unsuccessful retryable
attempt that is not the last, source line 298). -/
def getCommitStatsLoop (fetch : Nat → Except ApiError RawCommitResponse)
    (maxRetries : Nat) : Nat → Nat → CommitStats × List Nat
  | _, 0 => (zeroStats, [])
  | attempt, fuel + 1 =>
    match fetch attempt with
    | .ok resp => (mkCommitStats resp, [])
    | .error e =>
      if nonRetryable e then (zeroStats, [])
      else if attempt = maxRetries then (zeroStats, [])
      else
        let r := getCommitStatsLoop fetch maxRetries (attempt + 1) fuel
        (r.1, 2000 * attempt :: r.2)

/-- `getCommitStatsWithRetry` (source lines 253-301) at the default
`maxRetries = 3`, starting at attempt 1. -/
def getCommitStatsWithRetry (fetch : Nat → Except ApiError RawCommitResponse) :
    CommitStats × List Nat :=
  getCommitStatsLoop fetch 3 1 3

/-! ## Commit Fetcher (`getCommitsForRepo`, source lines 209-251)

The paginated `listCommits` call is an oracle
`pagesF : Nat → Except ApiError (List Commit)` indexed by the page
number.  The `while (totalFetched < maxCommitsPerRepo)` loop is unrolled
on a fuel of 5001: every continuing iteration appends a nonempty page, so
at most 5000 such iterations can keep `totalFetched` below 5000, and the
fuel-exhausted branch is never reached from `getCommitsForRepo`.

The `try`/`catch` in the source wraps the whole loop, `commits` included,
and the `catch` returns `[]`; an error on any page therefore discards
everything collected so far, which the `.error` branch below reproduces. -/

/-- A commit as used by this program: only its hash is consumed. -/
structure Commit where
  sha : String
deriving DecidableEq

/-- `maxCommitsPerRepo` (source line 214). -/
def maxCommitsPerRepo : Nat := 5000

/-- The pagination loop of `getCommitsForRepo`: arguments are the fuel,
the page number, the accumulated `commits`, and `totalFetched`. -/
def getCommitsLoop (pagesF : Nat → Except ApiError (List Commit)) :
    Nat → Nat → List Commit → Nat → List Commit
  | 0, _, acc, _ => acc
  | fuel + 1, page, acc, total =>
    if total < maxCommitsPerRepo then
      match pagesF page with
      | .error _ => []
      | .ok data =>
        if data.isEmpty then acc
        else getCommitsLoop pagesF fuel (page + 1) (acc ++ data) (total + data.length)
    else acc

/-- `getCommitsForRepo` (source lines 209-251). -/
def getCommitsForRepo (pagesF : Nat → Except ApiError (List Commit)) : List Commit :=
  getCommitsLoop pagesF 5001 1 [] 0

/-- A concrete page oracle under the API's `per_page = 100` bound (every
page holds at most 100 commits): page 1 returns 99 commits, pages 2-51
return 100 each, later pages are empty.  When page 51 is fetched the
running total is 4999, still under the cap. -/
def pagesOverOracle : Nat → Except ApiError (List Commit) :=
  fun p =>
    if p = 1 then .ok (List.replicate 99 { sha := "" })
    else if p ≤ 51 then .ok (List.replicate 100 { sha := "" })
    else .ok []

/-- A concrete page oracle whose first page succeeds with one commit and
whose second page fails. -/
def pagesErrOracle : Nat → Except ApiError (List Commit) :=
  fun p =>
    if p = 1 then .ok [{ sha := "abc" }]
    else .error { status := none, message := "connect ETIMEDOUT" }

/-! ## Repository Processor (`processRepository`, source lines 105-207)

The body of `processRepository` fetches the commit list and one
`CommitStats` per commit; any exception escaping the body is caught and
converted to a failure record.  The body's outcome is passed in as
`Except String (List CommitStats)`: the list of per-commit stats on
success (as returned by `getCommitStatsWithRetry`, which itself never
throws), or the exception's message.

The source has an early return for `commits.length === 0` (lines
112-123); its result record coincides with the general path applied to
the empty list (all sums zero, `truncatedCommits` read back as `0` by the
orchestrator's `|| 0` defaults), so a single path models both. -/

/-- The filtered additions/deletions of one commit (source lines
149-169): when the file list is nonempty, sum only files accepted by
`shouldIncludeFile`; otherwise, when the total is positive (fully
truncated commit), fall back to the commit's own unfiltered counts. -/
def commitFilteredCounts (s : CommitStats) : Nat × Nat :=
  if s.files.length > 0 then
    s.files.foldl
      (fun acc f =>
        if shouldIncludeFile f.filename then (acc.1 + f.additions, acc.2 + f.deletions)
        else acc)
      (0, 0)
  else if s.total > 0 then (s.additions, s.deletions)
  else (0, 0)

/-- The per-repository accumulator of `processRepository`
(`repoAdditions`, `repoDeletions`, `repoCommits`, `truncatedCommits`). -/
structure RepoAcc where
  additions : Nat
  deletions : Nat
  commits : Nat
  truncatedCommits : Nat
deriving DecidableEq

/-- The commit loop of `processRepository` (source lines 133-174). -/
def processCommits (l : List CommitStats) : RepoAcc :=
  l.foldl
    (fun acc s =>
      let fc := commitFilteredCounts s
      { additions := acc.additions + fc.1
        deletions := acc.deletions + fc.2
        commits := acc.commits + 1
        truncatedCommits := acc.truncatedCommits + if s.truncated then 1 else 0 })
    { additions := 0, deletions := 0, commits := 0, truncatedCommits := 0 }

/-- The `stats` record returned by `processRepository`. -/
structure ProcessStats where
  additions : Nat
  deletions : Nat
  commits : Nat
  netLines : Int
  truncatedCommits : Nat
deriving DecidableEq

/-- The `{ success, error?, stats }` record returned by
`processRepository`. -/
structure ProcessResult where
  success : Bool
  error : Option String
  stats : ProcessStats
deriving DecidableEq

/-- `processRepository` (source lines 105-207) as a function of its
body's outcome: success aggregates the per-commit stats; an exception
yields `success: false` with the error message and zero stats (lines
194-206). -/
def processRepository (body : Except String (List CommitStats)) : ProcessResult :=
  match body with
  | .error msg =>
    { success := false
      error := some msg
      stats := { additions := 0, deletions := 0, commits := 0, netLines := 0,
                 truncatedCommits := 0 } }
  | .ok commitStats =>
    let a := processCommits commitStats
    { success := true
      error := none
      stats := { additions := a.additions, deletions := a.deletions,
                 commits := a.commits,
                 netLines := (a.additions : Int) - (a.deletions : Int),
                 truncatedCommits := a.truncatedCommits } }

/-! ## Run Orchestrator (`calculateLOCForYear`, source lines 357-457) -/

/-- The fields of a repository record that the orchestrator reads. -/
structure RepoInfo where
  full_name : String
  size : Nat
deriving DecidableEq

/-- One entry of `results.repoStats` (source lines 421-429). -/
structure RepoStatsEntry where
  name : String
  additions : Nat
  deletions : Nat
  netLines : Int
  commits : Nat
  sizeKB : Nat
  truncatedCommits : Nat
deriving DecidableEq

/-- One value of the `results.fileTypeStats` mapping as the report code
reads it (`stats.additions`, source lines 534-535). -/
structure FileTypeStat where
  additions : Nat
deriving DecidableEq

/-- `results.runtimeStats` (source lines 392-396). -/
structure RuntimeStats where
  totalApiCalls : Nat
  truncatedCommits : Nat
  skippedCommits : Nat
deriving DecidableEq

/-- `results.processingStatus` (source lines 397-401). -/
structure ProcessingStatus where
  successful : Nat
  failed : Nat
  failedRepos : List String
deriving DecidableEq

/-- The `results` record built by `calculateLOCForYear` (source lines
383-403).  The `fileTypeStats` object is modelled as an association list
in insertion order, matching `Object.entries` enumeration. -/
structure RunResults where
  totalAdditions : Nat
  totalDeletions : Nat
  netLines : Int
  totalCommits : Nat
  repoStats : List RepoStatsEntry
  fileTypeStats : List (String × FileTypeStat)
  warnings : List String
  runtimeStats : RuntimeStats
  processingStatus : ProcessingStatus
  analysisMode : String
deriving DecidableEq

/-- The initial `results` record (source lines 383-403). -/
def initResults (analysisMode : String) : RunResults :=
  { totalAdditions := 0
    totalDeletions := 0
    netLines := 0
    totalCommits := 0
    repoStats := []
    fileTypeStats := []
    warnings := []
    runtimeStats := { totalApiCalls := 0, truncatedCommits := 0, skippedCommits := 0 }
    processingStatus := { successful := 0, failed := 0, failedRepos := [] }
    analysisMode := analysisMode }

/-- One iteration of the repository loop (source lines 407-435): on
success, bump the success counter, add the repository's sums to the
global totals, and append a `repoStats` entry; on failure, bump the
failure counter and append the repository's full name to `failedRepos`. -/
def stepRepo (acc : RunResults) (repo : RepoInfo) (result : ProcessResult) : RunResults :=
  if result.success then
    { acc with
      processingStatus :=
        { acc.processingStatus with successful := acc.processingStatus.successful + 1 }
      totalAdditions := acc.totalAdditions + result.stats.additions
      totalDeletions := acc.totalDeletions + result.stats.deletions
      totalCommits := acc.totalCommits + result.stats.commits
      runtimeStats :=
        { acc.runtimeStats with
          truncatedCommits := acc.runtimeStats.truncatedCommits +
            result.stats.truncatedCommits }
      repoStats := acc.repoStats ++
        [{ name := repo.full_name
           additions := result.stats.additions
           deletions := result.stats.deletions
           netLines := result.stats.netLines
           commits := result.stats.commits
           sizeKB := repo.size
           truncatedCommits := result.stats.truncatedCommits }] }
  else
    { acc with
      processingStatus :=
        { acc.processingStatus with
          failed := acc.processingStatus.failed + 1
          failedRepos := acc.processingStatus.failedRepos ++ [repo.full_name] } }

/-- `calculateLOCForYear` (source lines 357-457) as a function of the
selected repositories paired with each repository's processing-body
outcome (see `processRepository`), and of the final request count.  After
the loop, `netLines` is recomputed from the global totals and
`totalApiCalls` is set (lines 437-438). -/
def calculateLOCForYear (analysisMode : String) (requestCount : Nat)
    (inputs : List (RepoInfo × Except String (List CommitStats))) : RunResults :=
  let r := inputs.foldl (fun acc pr => stepRepo acc pr.1 (processRepository pr.2))
    (initResults analysisMode)
  { r with
    netLines := (r.totalAdditions : Int) - (r.totalDeletions : Int)
    runtimeStats := { r.runtimeStats with totalApiCalls := requestCount } }

/-! ## Reports (`generateTextSummary` / `printSummary` / `saveResults` /
`main`, source lines 459-655)

Both report functions run
`results.repoStats.sort((a, b) => b.additions - a.additions)` —
`Array.prototype.sort` sorts **in place** (stably, per ECMAScript), so
they mutate their argument.  The mutation is modelled by returning the
updated record next to nothing (the emitted text is out of scope).  The
comparator orders by descending `additions`; a stable sort under it is
`List.insertionSort` with the relation `entryGE` below. -/

/-- The order in which the repoStats comparator
`(a, b) => b.additions - a.additions` places `a` no later than `b`. -/
def entryGE (a b : RepoStatsEntry) : Prop :=
  b.additions ≤ a.additions

instance : DecidableRel entryGE := fun a b => Nat.decLe b.additions a.additions

instance : IsTotal RepoStatsEntry entryGE :=
  ⟨fun a b => Nat.le_total b.additions a.additions⟩

instance : IsTrans RepoStatsEntry entryGE :=
  ⟨fun _ _ _ h1 h2 => Nat.le_trans h2 h1⟩

/-- Same order for `fileTypeStats` entries (comparator
`([,a], [,b]) => b.additions - a.additions`). -/
def ftGE (a b : String × FileTypeStat) : Prop :=
  b.2.additions ≤ a.2.additions

instance : DecidableRel ftGE := fun a b => Nat.decLe b.2.additions a.2.additions

/-- The in-place sort both report functions perform on
`results.repoStats`. -/
def sortRepoStats (l : List RepoStatsEntry) : List RepoStatsEntry :=
  List.insertionSort entryGE l

/-- The state effect of `generateTextSummary` (source lines 485-539) on
its argument: `repoStats` is left sorted by descending additions. -/
def generateTextSummaryEffect (r : RunResults) : RunResults :=
  { r with repoStats := sortRepoStats r.repoStats }

/-- The `topFileTypes` list that `generateTextSummary` enumerates
(source lines 529-536). -/
def topFileTypes (r : RunResults) : List (String × FileTypeStat) :=
  (List.insertionSort ftGE r.fileTypeStats).take 10

/-- The state effect of `printSummary` (source lines 541-595) on its
argument: identical to `generateTextSummaryEffect`. -/
def printSummaryEffect (r : RunResults) : RunResults :=
  { r with repoStats := sortRepoStats r.repoStats }

/-- The report phase of `main` (source lines 642-643): `printSummary`
runs first and mutates `results`; `saveResults` then serialises that
mutated record to the JSON report.  Returns the record as persisted. -/
def persistedResults (results : RunResults) : RunResults :=
  printSummaryEffect results

/-! ## Derived abbreviations used to state and prove properties of the
run loop -/

/-- One element of the orchestrator's input: a repository together with
its processing-body outcome. -/
abbrev RunInput := RepoInfo × Except String (List CommitStats)

/-- The repository loop of `calculateLOCForYear` from an arbitrary
accumulator. -/
def runLoop (acc : RunResults) (l : List RunInput) : RunResults :=
  l.foldl (fun a pr => stepRepo a pr.1 (processRepository pr.2)) acc

/-- The inputs whose processing succeeds. -/
def succInputs (l : List RunInput) : List RunInput :=
  l.filter fun x => (processRepository x.2).success

/-- The full names of the inputs whose processing fails, in order. -/
def failNames (l : List RunInput) : List String :=
  (l.filter fun x => ! (processRepository x.2).success).map fun x => x.1.full_name

/-- The `repoStats` entry produced for a successfully processed input. -/
def entryOfInput (x : RunInput) : RepoStatsEntry :=
  { name := x.1.full_name
    additions := (processRepository x.2).stats.additions
    deletions := (processRepository x.2).stats.deletions
    netLines := (processRepository x.2).stats.netLines
    commits := (processRepository x.2).stats.commits
    sizeKB := x.1.size
    truncatedCommits := (processRepository x.2).stats.truncatedCommits }

/-- The sum, over the successfully processed inputs, of one `Nat` field of
their stats. -/
def succStatsSum (f : ProcessStats → Nat) (l : List RunInput) : Nat :=
  ((succInputs l).map fun x => f (processRepository x.2).stats).sum

/-! # Theorems

First, characterisations of the repository loop, established once by
induction and reused across the claims about `calculateLOCForYear`. -/

theorem runLoop_nil (acc : RunResults) : runLoop acc [] = acc := rfl

theorem runLoop_cons (acc : RunResults) (x : RunInput) (l : List RunInput) :
    runLoop acc (x :: l) = runLoop (stepRepo acc x.1 (processRepository x.2)) l := rfl

theorem stepRepo_fileTypeStats (acc : RunResults) (repo : RepoInfo)
    (res : ProcessResult) : (stepRepo acc repo res).fileTypeStats = acc.fileTypeStats := by
  unfold stepRepo; split <;> rfl

theorem runLoop_fileTypeStats (l : List RunInput) :
    ∀ acc : RunResults, (runLoop acc l).fileTypeStats = acc.fileTypeStats := by
  induction l with
  | nil => intro acc; rfl
  | cons x xs ih =>
    intro acc
    rw [runLoop_cons, ih, stepRepo_fileTypeStats]

theorem runLoop_netLines (l : List RunInput) :
    ∀ acc : RunResults, (runLoop acc l).netLines = acc.netLines := by
  induction l with
  | nil => intro acc; rfl
  | cons x xs ih =>
    intro acc
    rw [runLoop_cons, ih]
    unfold stepRepo; split <;> rfl

theorem runLoop_totalAdditions (l : List RunInput) :
    ∀ acc : RunResults, (runLoop acc l).totalAdditions =
      acc.totalAdditions + succStatsSum ProcessStats.additions l := by
  induction l with
  | nil => intro acc; rw [runLoop_nil]; simp [succStatsSum, succInputs]
  | cons x xs ih =>
    intro acc
    rw [runLoop_cons, ih]
    by_cases h : (processRepository x.2).success
    · simp [stepRepo, h, succStatsSum, succInputs, List.filter_cons, Nat.add_assoc]
    · simp [stepRepo, h, succStatsSum, succInputs, List.filter_cons]

theorem runLoop_totalDeletions (l : List RunInput) :
    ∀ acc : RunResults, (runLoop acc l).totalDeletions =
      acc.totalDeletions + succStatsSum ProcessStats.deletions l := by
  induction l with
  | nil => intro acc; rw [runLoop_nil]; simp [succStatsSum, succInputs]
  | cons x xs ih =>
    intro acc
    rw [runLoop_cons, ih]
    by_cases h : (processRepository x.2).success
    · simp [stepRepo, h, succStatsSum, succInputs, List.filter_cons, Nat.add_assoc]
    · simp [stepRepo, h, succStatsSum, succInputs, List.filter_cons]

theorem runLoop_totalCommits (l : List RunInput) :
    ∀ acc : RunResults, (runLoop acc l).totalCommits =
      acc.totalCommits + succStatsSum ProcessStats.commits l := by
  induction l with
  | nil => intro acc; rw [runLoop_nil]; simp [succStatsSum, succInputs]
  | cons x xs ih =>
    intro acc
    rw [runLoop_cons, ih]
    by_cases h : (processRepository x.2).success
    · simp [stepRepo, h, succStatsSum, succInputs, List.filter_cons, Nat.add_assoc]
    · simp [stepRepo, h, succStatsSum, succInputs, List.filter_cons]

theorem runLoop_repoStats (l : List RunInput) :
    ∀ acc : RunResults, (runLoop acc l).repoStats =
      acc.repoStats ++ (succInputs l).map entryOfInput := by
  induction l with
  | nil => intro acc; rw [runLoop_nil]; simp [succInputs]
  | cons x xs ih =>
    intro acc
    rw [runLoop_cons, ih]
    by_cases h : (processRepository x.2).success
    · simp [stepRepo, h, succInputs, List.filter_cons, entryOfInput]
    · simp [stepRepo, h, succInputs, List.filter_cons]

theorem runLoop_successful (l : List RunInput) :
    ∀ acc : RunResults, (runLoop acc l).processingStatus.successful =
      acc.processingStatus.successful + (succInputs l).length := by
  induction l with
  | nil => intro acc; rw [runLoop_nil]; simp [succInputs]
  | cons x xs ih =>
    intro acc
    rw [runLoop_cons, ih]
    by_cases h : (processRepository x.2).success
    · simp [stepRepo, h, succInputs, List.filter_cons, Nat.add_assoc, Nat.add_comm 1]
    · simp [stepRepo, h, succInputs, List.filter_cons]

theorem runLoop_failed (l : List RunInput) :
    ∀ acc : RunResults, (runLoop acc l).processingStatus.failed =
      acc.processingStatus.failed + (failNames l).length := by
  induction l with
  | nil => intro acc; rw [runLoop_nil]; simp [failNames]
  | cons x xs ih =>
    intro acc
    rw [runLoop_cons, ih]
    by_cases h : (processRepository x.2).success
    · simp [stepRepo, h, failNames, List.filter_cons]
    · simp [stepRepo, h, failNames, List.filter_cons, Nat.add_assoc, Nat.add_comm 1]

theorem runLoop_failedRepos (l : List RunInput) :
    ∀ acc : RunResults, (runLoop acc l).processingStatus.failedRepos =
      acc.processingStatus.failedRepos ++ failNames l := by
  induction l with
  | nil => intro acc; rw [runLoop_nil]; simp [failNames]
  | cons x xs ih =>
    intro acc
    rw [runLoop_cons, ih]
    by_cases h : (processRepository x.2).success
    · simp [stepRepo, h, failNames, List.filter_cons]
    · simp [stepRepo, h, failNames, List.filter_cons]

theorem calculateLOCForYear_eq (mode : String) (rc : Nat)
    (inputs : List RunInput) :
    calculateLOCForYear mode rc inputs =
      { runLoop (initResults mode) inputs with
        netLines := ((runLoop (initResults mode) inputs).totalAdditions : Int) -
          ((runLoop (initResults mode) inputs).totalDeletions : Int)
        runtimeStats :=
          { (runLoop (initResults mode) inputs).runtimeStats with
            totalApiCalls := rc } } := rfl

theorem succ_fail_length (l : List RunInput) :
    (succInputs l).length + (failNames l).length = l.length := by
  induction l with
  | nil => rfl
  | cons x xs ih =>
    by_cases h : (processRepository x.2).success
    · simp [succInputs, failNames, List.filter_cons, h] at ih ⊢
      omega
    · simp [succInputs, failNames, List.filter_cons, h] at ih ⊢
      omega

theorem name_count_partition (n : String) (l : List RunInput) :
    (((succInputs l).map entryOfInput).map RepoStatsEntry.name).count n +
        (failNames l).count n =
      (l.map fun x => x.1.full_name).count n := by
  induction l with
  | nil => rfl
  | cons x xs ih =>
    by_cases h : (processRepository x.2).success
    · simp [succInputs, failNames, List.filter_cons, h, List.count_cons, entryOfInput] at ih ⊢
      omega
    · simp [succInputs, failNames, List.filter_cons, h, List.count_cons] at ih ⊢
      omega

theorem calc_totalAdditions (mode : String) (rc : Nat) (inputs : List RunInput) :
    (calculateLOCForYear mode rc inputs).totalAdditions =
      (runLoop (initResults mode) inputs).totalAdditions := rfl

theorem calc_totalDeletions (mode : String) (rc : Nat) (inputs : List RunInput) :
    (calculateLOCForYear mode rc inputs).totalDeletions =
      (runLoop (initResults mode) inputs).totalDeletions := rfl

theorem calc_totalCommits (mode : String) (rc : Nat) (inputs : List RunInput) :
    (calculateLOCForYear mode rc inputs).totalCommits =
      (runLoop (initResults mode) inputs).totalCommits := rfl

theorem calc_netLines (mode : String) (rc : Nat) (inputs : List RunInput) :
    (calculateLOCForYear mode rc inputs).netLines =
      ((runLoop (initResults mode) inputs).totalAdditions : Int) -
        ((runLoop (initResults mode) inputs).totalDeletions : Int) := rfl

theorem calc_repoStats (mode : String) (rc : Nat) (inputs : List RunInput) :
    (calculateLOCForYear mode rc inputs).repoStats =
      (runLoop (initResults mode) inputs).repoStats := rfl

theorem calc_fileTypeStats (mode : String) (rc : Nat) (inputs : List RunInput) :
    (calculateLOCForYear mode rc inputs).fileTypeStats =
      (runLoop (initResults mode) inputs).fileTypeStats := rfl

theorem calc_processingStatus (mode : String) (rc : Nat) (inputs : List RunInput) :
    (calculateLOCForYear mode rc inputs).processingStatus =
      (runLoop (initResults mode) inputs).processingStatus := rfl

/-- **C4.** For every run over any selected set of repositories, the
finished `RunResult` satisfies `netLines == totalAdditions -
totalDeletions`, `processingStatus.successful + processingStatus.failed`
equals the number of repositories selected, and every selected repository
is counted in exactly one of `repoStats` and `failedRepos`: for each
name, its multiplicity among the `repoStats` entries plus its
multiplicity in `failedRepos` equals its multiplicity among the selected
repositories. -/
theorem claim_c4 (mode : String) (rc : Nat) (inputs : List RunInput) :
    (calculateLOCForYear mode rc inputs).netLines =
        ((calculateLOCForYear mode rc inputs).totalAdditions : Int) -
          ((calculateLOCForYear mode rc inputs).totalDeletions : Int) ∧
    (calculateLOCForYear mode rc inputs).processingStatus.successful +
        (calculateLOCForYear mode rc inputs).processingStatus.failed =
      inputs.length ∧
    ∀ n : String,
      ((calculateLOCForYear mode rc inputs).repoStats.map RepoStatsEntry.name).count n +
          (calculateLOCForYear mode rc inputs).processingStatus.failedRepos.count n =
        (inputs.map fun x => x.1.full_name).count n := by
  refine ⟨?_, ?_, fun n => ?_⟩
  · rw [calc_netLines, calc_totalAdditions, calc_totalDeletions]
  · rw [calc_processingStatus, runLoop_successful, runLoop_failed]
    simpa [initResults] using succ_fail_length inputs
  · rw [calc_repoStats, calc_processingStatus, runLoop_repoStats, runLoop_failedRepos]
    simpa [initResults] using name_count_partition n inputs

/-- Witness for `claim_c4`: on the empty selection, both counters sum to
zero repositories. -/
theorem claim_c4_witness :
    (calculateLOCForYear "all" 0 []).processingStatus.successful +
      (calculateLOCForYear "all" 0 []).processingStatus.failed =
      ([] : List RunInput).length :=
  (claim_c4 "all" 0 []).2.1

/-- **C6.** For every repository whose processing raises an unexpected
exception, `processRepository` returns a failure record carrying the
error message, and the run orchestrator adds none of that repository's
additions, deletions or commit counts to the global totals: relative to
the same run without that repository, only the `failed` counter and the
`failedRepos` list change (the repository's full name is inserted at its
position), while the totals, `netLines`, the success counter and
`repoStats` are identical — and the repositories after it are still
processed. -/
theorem claim_c6 (mode : String) (rc : Nat) (pre post : List RunInput)
    (repo : RepoInfo) (msg : String) :
    processRepository (Except.error msg) =
      { success := false, error := some msg,
        stats := { additions := 0, deletions := 0, commits := 0, netLines := 0,
                   truncatedCommits := 0 } } ∧
    (calculateLOCForYear mode rc (pre ++ (repo, Except.error msg) :: post)).totalAdditions =
      (calculateLOCForYear mode rc (pre ++ post)).totalAdditions ∧
    (calculateLOCForYear mode rc (pre ++ (repo, Except.error msg) :: post)).totalDeletions =
      (calculateLOCForYear mode rc (pre ++ post)).totalDeletions ∧
    (calculateLOCForYear mode rc (pre ++ (repo, Except.error msg) :: post)).totalCommits =
      (calculateLOCForYear mode rc (pre ++ post)).totalCommits ∧
    (calculateLOCForYear mode rc (pre ++ (repo, Except.error msg) :: post)).netLines =
      (calculateLOCForYear mode rc (pre ++ post)).netLines ∧
    (calculateLOCForYear mode rc (pre ++ (repo, Except.error msg) :: post)).repoStats =
      (calculateLOCForYear mode rc (pre ++ post)).repoStats ∧
    (calculateLOCForYear mode rc
        (pre ++ (repo, Except.error msg) :: post)).processingStatus.successful =
      (calculateLOCForYear mode rc (pre ++ post)).processingStatus.successful ∧
    (calculateLOCForYear mode rc
        (pre ++ (repo, Except.error msg) :: post)).processingStatus.failed =
      (calculateLOCForYear mode rc (pre ++ post)).processingStatus.failed + 1 ∧
    (calculateLOCForYear mode rc
        (pre ++ (repo, Except.error msg) :: post)).processingStatus.failedRepos =
      failNames pre ++ repo.full_name :: failNames post := by
  have hsucc : succInputs (pre ++ (repo, Except.error msg) :: post) =
      succInputs (pre ++ post) := by
    simp [succInputs, List.filter_append, List.filter_cons, processRepository]
  have hfail : failNames (pre ++ (repo, Except.error msg) :: post) =
      failNames pre ++ repo.full_name :: failNames post := by
    simp [failNames, List.filter_append, List.filter_cons, processRepository]
  have hfail' : failNames (pre ++ post) = failNames pre ++ failNames post := by
    simp [failNames, List.filter_append]
  refine ⟨rfl, ?_, ?_, ?_, ?_, ?_, ?_, ?_, ?_⟩
  · rw [calc_totalAdditions, calc_totalAdditions, runLoop_totalAdditions,
      runLoop_totalAdditions]
    simp [succStatsSum, hsucc]
  · rw [calc_totalDeletions, calc_totalDeletions, runLoop_totalDeletions,
      runLoop_totalDeletions]
    simp [succStatsSum, hsucc]
  · rw [calc_totalCommits, calc_totalCommits, runLoop_totalCommits,
      runLoop_totalCommits]
    simp [succStatsSum, hsucc]
  · rw [calc_netLines, calc_netLines, runLoop_totalAdditions, runLoop_totalAdditions,
      runLoop_totalDeletions, runLoop_totalDeletions]
    simp [succStatsSum, hsucc]
  · rw [calc_repoStats, calc_repoStats, runLoop_repoStats, runLoop_repoStats, hsucc]
  · rw [calc_processingStatus, calc_processingStatus, runLoop_successful,
      runLoop_successful, hsucc]
  · rw [calc_processingStatus, calc_processingStatus, runLoop_failed, runLoop_failed,
      hfail, hfail']
    simp [Nat.add_assoc, Nat.add_comm 1]
  · rw [calc_processingStatus, runLoop_failedRepos, hfail]
    simp [initResults]

/-- Witness for `claim_c6`: a single failing repository bumps the failed
counter from 0 to 1. -/
theorem claim_c6_witness :
    (calculateLOCForYear "all" 0
        ([] ++ ({ full_name := "r", size := 0 }, Except.error "boom") :: [])).processingStatus.failed =
      (calculateLOCForYear "all" 0 ([] ++ [])).processingStatus.failed + 1 :=
  (claim_c6 "all" 0 [] [] { full_name := "r", size := 0 } "boom").2.2.2.2.2.2.2.1

/-- **C9.** For every run, the `fileTypeStats` mapping in the `RunResult`
is initialized empty, no processing step ever adds an entry to it, it is
still empty when reports are emitted, and the top-10-file-extensions
section of the text summary enumerates zero entries. -/
theorem claim_c9 (mode : String) (rc : Nat) (inputs : List RunInput) :
    (initResults mode).fileTypeStats = [] ∧
    (∀ acc repo res, (stepRepo acc repo res).fileTypeStats = acc.fileTypeStats) ∧
    (calculateLOCForYear mode rc inputs).fileTypeStats = [] ∧
    topFileTypes (calculateLOCForYear mode rc inputs) = [] := by
  have h : (calculateLOCForYear mode rc inputs).fileTypeStats = [] := by
    rw [calc_fileTypeStats, runLoop_fileTypeStats]
    simp [initResults]
  exact ⟨by simp [initResults], stepRepo_fileTypeStats, h, by simp [topFileTypes, h]⟩

/-- Witness for `claim_c9`: the empty-selection run enumerates zero
file-type entries. -/
theorem claim_c9_witness :
    topFileTypes (calculateLOCForYear "all" 0 []) = [] :=
  (claim_c9 "all" 0 []).2.2.2

/-- **C10.** `generateTextSummary` and `printSummary` leave their
argument's `repoStats` sorted by descending additions (they are not
read-only over their input), and because `main` invokes `printSummary`
before `saveResults`, the `repoStats` list in the persisted JSON report
is sorted by descending additions (stably, per the comparator
`(a, b) => b.additions - a.additions`) while remaining a permutation of
the processing-order list. -/
theorem claim_c10 (r : RunResults) :
    (generateTextSummaryEffect r).repoStats = sortRepoStats r.repoStats ∧
    (printSummaryEffect r).repoStats = sortRepoStats r.repoStats ∧
    List.Sorted entryGE (persistedResults r).repoStats ∧
    List.Perm (persistedResults r).repoStats r.repoStats ∧
    ∃ r0 : RunResults, printSummaryEffect r0 ≠ r0 := by
  refine ⟨rfl, rfl, List.sorted_insertionSort entryGE r.repoStats,
    List.perm_insertionSort entryGE r.repoStats, ?_⟩
  refine ⟨{ initResults "all" with
    repoStats := [{ name := "a", additions := 0, deletions := 0, netLines := 0,
                    commits := 0, sizeKB := 0, truncatedCommits := 0 },
                  { name := "b", additions := 1, deletions := 0, netLines := 1,
                    commits := 0, sizeKB := 0, truncatedCommits := 0 }] }, ?_⟩
  decide

/-- Witness for `claim_c10`: the persisted `repoStats` of a concrete run
record is sorted under `entryGE`. -/
theorem claim_c10_witness :
    List.Sorted entryGE (persistedResults (initResults "all")).repoStats :=
  (claim_c10 (initResults "all")).2.2.1

/-- **C5.** For all paths `p`, `shouldIncludeFile p` returns `false` if
and only if at least one of the exclusion pattern rules matches `p`
(default-include otherwise); in particular none of
`"package-lock.json"`, `"dist/x.js"`, `"node_modules/a/b.js"`,
`"video.mp4"` are included, while `"src/index.js"` and `"README.md"`
are. -/
theorem claim_c5 :
    (∀ p : String,
      (shouldIncludeFile p = false ↔ ∃ rule ∈ excludePatterns, rule p = true)) ∧
    shouldIncludeFile "package-lock.json" = false ∧
    shouldIncludeFile "dist/x.js" = false ∧
    shouldIncludeFile "node_modules/a/b.js" = false ∧
    shouldIncludeFile "video.mp4" = false ∧
    shouldIncludeFile "src/index.js" = true ∧
    shouldIncludeFile "README.md" = true := by
  refine ⟨fun p => ?_, ?_, ?_, ?_, ?_, ?_, ?_⟩
  · simp [shouldIncludeFile, List.any_eq_true]
  all_goals decide

/-- Witness for `claim_c5`: the theorem applied at the concrete path
`"dist/x.js"` produces a matching exclusion rule. -/
theorem claim_c5_witness :
    ∃ rule ∈ excludePatterns, rule "dist/x.js" = true :=
  (claim_c5.1 "dist/x.js").mp claim_c5.2.2.1

/-- **C2.** For every owner/repo/sha (i.e. for every attempt oracle),
`getCommitStatsWithRetry` never propagates an error to its caller: a
not-found or conflict response (HTTP 404 or 409) immediately returns
zero-valued stats with `truncated = false` and without retrying (no
backoff sleep); any other failure is retried, up to 3 attempts, with a
backoff of `attempt * 2` seconds after each failed attempt; and after the
3rd failed attempt it returns zero-valued stats with
`truncated = false`. -/
theorem claim_c2 (fetch : Nat → Except ApiError RawCommitResponse) :
    zeroStats.truncated = false ∧
    (∀ e, fetch 1 = .error e → nonRetryable e →
      getCommitStatsWithRetry fetch = (zeroStats, [])) ∧
    (∀ e1 resp, fetch 1 = .error e1 → ¬ nonRetryable e1 → fetch 2 = .ok resp →
      getCommitStatsWithRetry fetch = (mkCommitStats resp, [2000])) ∧
    (∀ e1 e2 resp, fetch 1 = .error e1 → ¬ nonRetryable e1 →
      fetch 2 = .error e2 → ¬ nonRetryable e2 → fetch 3 = .ok resp →
      getCommitStatsWithRetry fetch = (mkCommitStats resp, [2000, 4000])) ∧
    (∀ e1 e2 e3, fetch 1 = .error e1 → ¬ nonRetryable e1 →
      fetch 2 = .error e2 → ¬ nonRetryable e2 → fetch 3 = .error e3 →
      getCommitStatsWithRetry fetch = (zeroStats, [2000, 4000])) := by
  refine ⟨rfl, ?_, ?_, ?_, ?_⟩
  · intro e h1 hn
    show getCommitStatsLoop fetch 3 1 3 = (zeroStats, [])
    rw [show (3 : Nat) = 2 + 1 from rfl]
    simp only [getCommitStatsLoop, h1, if_pos hn]
  · intro e1 resp h1 hn1 h2
    show getCommitStatsLoop fetch 3 1 3 = _
    rw [show (3 : Nat) = 2 + 1 from rfl]
    simp only [getCommitStatsLoop, h1, if_neg hn1,
      if_neg (by decide : ¬ (1 : Nat) = 3), h2]
  · intro e1 e2 resp h1 hn1 h2 hn2 h3
    show getCommitStatsLoop fetch 3 1 3 = _
    rw [show (3 : Nat) = 2 + 1 from rfl]
    simp only [getCommitStatsLoop, h1, if_neg hn1,
      if_neg (by decide : ¬ (1 : Nat) = 3), h2, if_neg hn2,
      if_neg (by decide : ¬ (2 : Nat) = 3), h3]
  · intro e1 e2 e3 h1 hn1 h2 hn2 h3
    show getCommitStatsLoop fetch 3 1 3 = _
    rw [show (3 : Nat) = 2 + 1 from rfl]
    by_cases hn3 : nonRetryable e3
    · simp only [getCommitStatsLoop, h1, if_neg hn1,
        if_neg (by decide : ¬ (1 : Nat) = 3), h2, if_neg hn2,
        if_neg (by decide : ¬ (2 : Nat) = 3), h3, if_pos hn3]
    · simp only [getCommitStatsLoop, h1, if_neg hn1,
        if_neg (by decide : ¬ (1 : Nat) = 3), h2, if_neg hn2,
        if_neg (by decide : ¬ (2 : Nat) = 3), h3, if_neg hn3,
        if_pos (rfl : (3 : Nat) = 3)]
      norm_num

/-- Witness for `claim_c2`: a 404 at the first attempt returns zero stats
with no sleep, and three generic failures return zero stats after
backoffs of 2 s and 4 s. -/
theorem claim_c2_witness :
    getCommitStatsWithRetry (fun _ => Except.error ⟨some 404, "not found"⟩) =
        (zeroStats, []) ∧
    getCommitStatsWithRetry (fun _ => Except.error ⟨none, "socket hang up"⟩) =
        (zeroStats, [2000, 4000]) :=
  ⟨(claim_c2 (fun _ => Except.error ⟨some 404, "not found"⟩)).2.1
      ⟨some 404, "not found"⟩ rfl (by right; rfl),
   (claim_c2 (fun _ => Except.error ⟨none, "socket hang up"⟩)).2.2.2.2
      ⟨none, "socket hang up"⟩ ⟨none, "socket hang up"⟩ ⟨none, "socket hang up"⟩
      rfl (by simp [nonRetryable]) rfl (by simp [nonRetryable]) rfl⟩

/-- **C3.** For every successful commit-stat response, the truncation flag
returned by `getCommitStatsWithRetry` equals
`(fileList.length >= 300) OR (totalChanges > 50000)`; in particular a
response with 300 file records or with total changes 60000 yields
`truncated = true`, and one with 10 file records and total 40 yields
`truncated = false`. -/
theorem claim_c3 (fetch : Nat → Except ApiError RawCommitResponse) :
    (∀ resp, fetch 1 = .ok resp →
      (getCommitStatsWithRetry fetch).1.truncated =
        (decide ((resp.files.getD []).length ≥ 300) ||
         decide ((resp.stats.getD ⟨0, 0, 0⟩).total > 50000))) ∧
    (getCommitStatsWithRetry (fun _ => Except.ok
      ⟨some ⟨0, 0, 0⟩, some (List.replicate 300 ⟨"f", 0, 0⟩)⟩)).1.truncated = true ∧
    (getCommitStatsWithRetry (fun _ => Except.ok
      ⟨some ⟨30000, 30000, 60000⟩, some []⟩)).1.truncated = true ∧
    (getCommitStatsWithRetry (fun _ => Except.ok
      ⟨some ⟨20, 20, 40⟩, some (List.replicate 10 ⟨"f", 2, 2⟩)⟩)).1.truncated = false := by
  refine ⟨?_, ?_, ?_, ?_⟩
  · intro resp h1
    show (getCommitStatsLoop _ 3 1 3).1.truncated = _
    rw [show (3 : Nat) = 2 + 1 from rfl]
    simp only [getCommitStatsLoop, h1, mkCommitStats]
  all_goals
    show (getCommitStatsLoop _ 3 1 3).1.truncated = _
    rw [show (3 : Nat) = 2 + 1 from rfl]
    simp only [getCommitStatsLoop]
    simp only [mkCommitStats, Option.getD, List.length_replicate]
    decide

/-- Witness for `claim_c3`: the theorem applied to the concrete oracle
answering with 2 files and total 60001 computes `truncated = true`. -/
theorem claim_c3_witness :
    (getCommitStatsWithRetry (fun _ => Except.ok
      ⟨some ⟨60000, 1, 60001⟩, some [⟨"a.js", 60000, 0⟩, ⟨"b.js", 0, 1⟩]⟩)).1.truncated =
      true := by
  have h := (claim_c3 (fun _ => Except.ok
    ⟨some ⟨60000, 1, 60001⟩, some [⟨"a.js", 60000, 0⟩, ⟨"b.js", 0, 1⟩]⟩)).1
    ⟨some ⟨60000, 1, 60001⟩, some [⟨"a.js", 60000, 0⟩, ⟨"b.js", 0, 1⟩]⟩ rfl
  rw [h]
  decide

theorem throttleRun_noExceed :
    ∀ (nows : List Nat) (s : ThrottleState), noExceed s nows →
      ∀ w ∈ throttleRun s nows, w.1 = 0 := by
  intro nows
  induction nows with
  | nil =>
    intro s _ w hw
    simp [throttleRun] at hw
  | cons now rest ih =>
    intro s h w hw
    obtain ⟨hc, hrest⟩ := h
    simp only [throttleRun, List.mem_cons] at hw
    rcases hw with hw | hw
    · subst hw
      show (rateLimitCheck s now).2.1 = 0
      show (if rateCond s now ∧ rateWaitTime s now > 0 then rateWaitTime s now else 0) = 0
      rw [if_neg (fun hand => hc hand.1)]
    · exact ih _ hrest w hw

/-- **C7.** Every call to `rateLimitCheck` increments the call counter;
for positive elapsed time, the trigger condition is exactly the spec's
"implied sustained rate `count / elapsedHours` exceeds the ceiling"; when
it triggers and the computed wait (`count/ceiling` hours of budget minus
the actual elapsed time) is positive, the caller is suspended for exactly
that wait; when the rate does not exceed the ceiling, no rate-limit
suspension happens; the baseline delay is always applied, at 100 ms,
escalating to 150 ms once the cumulative count exceeds 100; and any run
of calls during which the ceiling is never exceeded performs no
suspension beyond those baseline delays. -/
theorem claim_c7 (s : ThrottleState) (now : Nat) :
    (rateLimitCheck s now).1.requestCount = s.requestCount + 1 ∧
    (0 < ((now : ℚ) - (s.startTime : ℚ)) →
      (rateCond s now ↔
        ((s.requestCount + 1 : Nat) : ℚ) /
            (((now : ℚ) - (s.startTime : ℚ)) / 3600000) >
          (maxRequestsPerHour : ℚ))) ∧
    (rateCond s now → 0 < rateWaitTime s now →
      (rateLimitCheck s now).2.1 = rateWaitTime s now) ∧
    (¬ rateCond s now → (rateLimitCheck s now).2.1 = 0) ∧
    ((rateLimitCheck s now).2.2 = if s.requestCount + 1 > 100 then 150 else 100) ∧
    (∀ nows : List Nat, noExceed s nows →
      ∀ w ∈ throttleRun s nows, w.1 = 0) := by
  refine ⟨rfl, ?_, ?_, ?_, rfl, fun nows h => throttleRun_noExceed nows s h⟩
  · intro he
    unfold rateCond maxRequestsPerHour
    constructor
    · intro h
      rw [gt_iff_lt, div_div_eq_mul_div, lt_div_iff₀ he]
      exact_mod_cast h
    · intro h
      rw [gt_iff_lt, div_div_eq_mul_div, lt_div_iff₀ he] at h
      exact_mod_cast h
  · intro hc hw
    show (if rateCond s now ∧ rateWaitTime s now > 0 then rateWaitTime s now else 0) =
      rateWaitTime s now
    rw [if_pos ⟨hc, hw⟩]
  · intro hn
    show (if rateCond s now ∧ rateWaitTime s now > 0 then rateWaitTime s now else 0) = 0
    rw [if_neg (fun hand => hn hand.1)]

/-- Witness for `claim_c7`: an immediate first call (zero elapsed time)
triggers the rate-limit wait of `1 * 750 - 0 = 750` ms; at one elapsed
millisecond the implied rate `1 / (1ms in hours)` exceeds the ceiling;
calls whose implied sustained rate is under the ceiling suspend `0` ms,
both for a single call and along a run. -/
theorem claim_c7_witness :
    (rateLimitCheck ⟨0, 0⟩ 0).2.1 = rateWaitTime ⟨0, 0⟩ 0 ∧
    ((1 : ℚ)) / ((1 : ℚ) / 3600000) > (maxRequestsPerHour : ℚ) ∧
    (rateLimitCheck ⟨100, 0⟩ 3600000000).2.1 = 0 ∧
    (rateLimitCheck ⟨5, 0⟩ 7200000000).2.1 = 0 := by
  refine ⟨(claim_c7 ⟨0, 0⟩ 0).2.2.1 (by decide) (by decide), ?_, ?_, ?_⟩
  · have h := ((claim_c7 ⟨0, 0⟩ 1).2.1 (by norm_num)).mp (by decide)
    push_cast at h
    simpa using h
  · exact (claim_c7 ⟨100, 0⟩ 3600000000).2.2.2.1 (by decide)
  · exact (claim_c7 ⟨5, 0⟩ 7200000000).2.2.2.2.2 [7200000000]
      ⟨by decide, trivial⟩ _ (List.mem_singleton.mpr rfl)

/-- One unfolding step of the pagination loop at positive fuel. -/
theorem getCommitsLoop_succ (pagesF : Nat → Except ApiError (List Commit))
    (fuel page total : Nat) (acc : List Commit) :
    getCommitsLoop pagesF (fuel + 1) page acc total =
      (if total < maxCommitsPerRepo then
        match pagesF page with
        | .error _ => []
        | .ok data =>
          if data.isEmpty then acc
          else getCommitsLoop pagesF fuel (page + 1) (acc ++ data) (total + data.length)
      else acc) := rfl

/-- A loop step whose page fetch fails returns `[]` (the `catch` of
`getCommitsForRepo` discards the accumulator). -/
theorem getCommitsLoop_error_step (pagesF : Nat → Except ApiError (List Commit))
    (fuel page total : Nat) (acc : List Commit) {e : ApiError}
    (ht : total < maxCommitsPerRepo) (hp : pagesF page = .error e) :
    getCommitsLoop pagesF (fuel + 1) page acc total = [] := by
  rw [getCommitsLoop_succ, if_pos ht, hp]

/-- A loop step under the cap whose page is nonempty appends it and
continues. -/
theorem getCommitsLoop_ok_step (pagesF : Nat → Except ApiError (List Commit))
    (fuel page total : Nat) (acc : List Commit) {data : List Commit}
    (ht : total < maxCommitsPerRepo) (hp : pagesF page = .ok data)
    (hne : data ≠ []) :
    getCommitsLoop pagesF (fuel + 1) page acc total =
      getCommitsLoop pagesF fuel (page + 1) (acc ++ data) (total + data.length) := by
  rw [getCommitsLoop_succ, if_pos ht, hp]
  cases data with
  | nil => exact absurd rfl hne
  | cons c cs => rfl

/-- A loop step under the cap whose page is empty stops with the
accumulator. -/
theorem getCommitsLoop_empty_step (pagesF : Nat → Except ApiError (List Commit))
    (fuel page total : Nat) (acc : List Commit)
    (ht : total < maxCommitsPerRepo) (hp : pagesF page = .ok []) :
    getCommitsLoop pagesF (fuel + 1) page acc total = acc := by
  rw [getCommitsLoop_succ, if_pos ht, hp]
  rfl

/-- A loop step at or above the cap stops with the accumulator. -/
theorem getCommitsLoop_cap_step (pagesF : Nat → Except ApiError (List Commit))
    (fuel page total : Nat) (acc : List Commit)
    (ht : ¬ total < maxCommitsPerRepo) :
    getCommitsLoop pagesF (fuel + 1) page acc total = acc := by
  rw [getCommitsLoop_succ, if_neg ht]

/-- Counterexample to **C1** as stated: with `pagesErrOracle`, page 1
succeeds with one commit and page 2 fails, yet `getCommitsForRepo`
returns the empty list — not the commits collected before the failure. -/
theorem claim_c1_counterexample :
    getCommitsForRepo pagesErrOracle ≠ [{ sha := "abc" }] ∧
    getCommitsForRepo pagesErrOracle = [] := by
  have h2 : getCommitsForRepo pagesErrOracle = [] := by
    show getCommitsLoop pagesErrOracle (5000 + 1) 1 [] 0 = []
    rw [getCommitsLoop_ok_step pagesErrOracle 5000 1 0 []
      (by decide) (rfl : pagesErrOracle 1 = .ok [{ sha := "abc" }]) (by simp)]
    rw [show (5000 : Nat) = 4999 + 1 from rfl]
    exact getCommitsLoop_error_step pagesErrOracle 4999 (1 + 1) _ _ (by decide)
      (rfl : pagesErrOracle (1 + 1) =
        .error { status := none, message := "connect ETIMEDOUT" })
  exact ⟨by rw [h2]; simp, h2⟩

/-- **C1 (amended).** When a page fetch of the commit-listing API fails
on some reached page, `getCommitsForRepo` abandons pagination and returns
the **empty** list: the `try`/`catch` wraps the whole pagination loop and
the handler returns `[]`, so the commits collected from pages that
succeeded before the failure are discarded. -/
theorem claim_c1 (pagesF : Nat → Except ApiError (List Commit)) :
    (∀ fuel page acc total e, pagesF page = .error e →
      total < maxCommitsPerRepo →
      getCommitsLoop pagesF (fuel + 1) page acc total = []) ∧
    (∀ e, pagesF 1 = .error e → getCommitsForRepo pagesF = []) := by
  have hloop : ∀ fuel page acc total e, pagesF page = .error e →
      total < maxCommitsPerRepo →
      getCommitsLoop pagesF (fuel + 1) page acc total = [] := by
    intro fuel page acc total e hp ht
    exact getCommitsLoop_error_step pagesF fuel page total acc ht hp
  refine ⟨hloop, fun e he => ?_⟩
  show getCommitsLoop pagesF (5000 + 1) 1 [] 0 = []
  exact hloop 5000 1 [] 0 e he (by decide)

/-- Witness for `claim_c1`: an oracle failing on every page makes
`getCommitsForRepo` return `[]`. -/
theorem claim_c1_witness :
    getCommitsForRepo (fun _ => Except.error { status := none, message := "x" }) = [] :=
  (claim_c1 (fun _ => Except.error { status := none, message := "x" })).2
    { status := none, message := "x" } rfl

theorem pagesOverOracle_mid (p : Nat) (h2 : 2 ≤ p) (h51 : p ≤ 51) :
    pagesOverOracle p = .ok (List.replicate 100 { sha := "" }) := by
  unfold pagesOverOracle
  rw [if_neg (by omega), if_pos h51]

theorem overLoop_length :
    ∀ fuel page (acc : List Commit) total,
      2 ≤ page → page ≤ 52 → total = 99 + 100 * (page - 2) →
      acc.length = total → 52 - page < fuel →
      (getCommitsLoop pagesOverOracle fuel page acc total).length = 5099 := by
  intro fuel
  induction fuel with
  | zero =>
    intro page acc total _ _ _ _ hfuel
    omega
  | succ f ih =>
    intro page acc total h2 h52 htot hlen hfuel
    by_cases hp : page = 52
    · have hcap : ¬ total < maxCommitsPerRepo := by
        simp only [maxCommitsPerRepo]
        omega
      rw [getCommitsLoop_cap_step pagesOverOracle f page total acc hcap]
      omega
    · have hlt : total < maxCommitsPerRepo := by
        simp only [maxCommitsPerRepo]
        omega
      rw [getCommitsLoop_ok_step pagesOverOracle f page total acc hlt
        (pagesOverOracle_mid page h2 (by omega)) (by simp)]
      rw [List.length_replicate]
      refine ih (page + 1) (acc ++ List.replicate 100 { sha := "" }) (total + 100)
        (by omega) (by omega) (by omega) (by simp [hlen]) (by omega)

/-- Counterexample to **C8** as stated ("the returned sequence contains
at most 5000 commits"): under `pagesOverOracle` — every page within the
API page size of 100 commits — the returned sequence has 5099 commits,
because the cap is only checked before fetching a page (the total is
4999 after page 50, which still admits one more 100-commit page). -/
theorem claim_c8_counterexample :
    5000 < (getCommitsForRepo pagesOverOracle).length := by
  have hlen : (getCommitsForRepo pagesOverOracle).length = 5099 := by
    show (getCommitsLoop pagesOverOracle (5000 + 1) 1 [] 0).length = 5099
    rw [getCommitsLoop_ok_step pagesOverOracle 5000 1 0 [] (by decide)
      (rfl : pagesOverOracle 1 = .ok (List.replicate 99 { sha := "" })) (by simp)]
    rw [List.length_replicate, List.nil_append]
    exact overLoop_length 5000 (1 + 1) (List.replicate 99 { sha := "" }) (0 + 99)
      (by omega) (by omega) (by omega) (by simp) (by omega)
  omega

theorem getCommitsLoop_length_le (pagesF : Nat → Except ApiError (List Commit))
    (hbound : ∀ p l, pagesF p = .ok l → l.length ≤ 100) :
    ∀ fuel page acc total, acc.length = total → total ≤ 5099 →
      (getCommitsLoop pagesF fuel page acc total).length ≤ 5099 := by
  intro fuel
  induction fuel with
  | zero =>
    intro page acc total hlen hle
    simpa [getCommitsLoop, hlen] using hle
  | succ f ih =>
    intro page acc total hlen hle
    by_cases hlt : total < maxCommitsPerRepo
    · cases hdata : pagesF page with
      | error e =>
        rw [getCommitsLoop_error_step pagesF f page total acc hlt hdata]
        simp
      | ok data =>
        cases data with
        | nil =>
          rw [getCommitsLoop_empty_step pagesF f page total acc hlt hdata]
          omega
        | cons c cs =>
          rw [getCommitsLoop_ok_step pagesF f page total acc hlt hdata (by simp)]
          refine ih (page + 1) (acc ++ c :: cs) (total + (c :: cs).length)
            (by simp [hlen]) ?_
          have hd : (c :: cs).length ≤ 100 := hbound page (c :: cs) hdata
          have hlt5 : total < 5000 := hlt
          omega
    · rw [getCommitsLoop_cap_step pagesF f page total acc hlt]
      omega

/-- **C8 (amended).** `getCommitsForRepo` pages through the commit list
until a page returns no results or the running total has reached the
hard cap of 5000 commits; since the cap is checked only before each
fetch, the returned sequence contains at most `5000 + 99 = 5099` commits
when every page holds at most the API page size of 100 (the last fetched
page may overshoot the cap by up to 99). -/
theorem claim_c8 (pagesF : Nat → Except ApiError (List Commit))
    (hbound : ∀ p l, pagesF p = .ok l → l.length ≤ 100) :
    (∀ fuel page acc total, ¬ total < maxCommitsPerRepo →
      getCommitsLoop pagesF (fuel + 1) page acc total = acc) ∧
    (∀ fuel page acc total, total < maxCommitsPerRepo → pagesF page = .ok [] →
      getCommitsLoop pagesF (fuel + 1) page acc total = acc) ∧
    (getCommitsForRepo pagesF).length ≤ maxCommitsPerRepo + 99 := by
  refine ⟨?_, ?_, ?_⟩
  · intro fuel page acc total hge
    exact getCommitsLoop_cap_step pagesF fuel page total acc hge
  · intro fuel page acc total hlt hp
    exact getCommitsLoop_empty_step pagesF fuel page total acc hlt hp
  · show (getCommitsLoop pagesF 5001 1 [] 0).length ≤ 5099
    exact getCommitsLoop_length_le pagesF hbound 5001 1 [] 0 rfl (by decide)

/-- Witness for `claim_c8`: an oracle answering only empty pages (each of
length `0 ≤ 100`) stops immediately; the cap-stop conjunct applied with
the total already at the cap returns the accumulator unchanged. -/
theorem claim_c8_witness :
    getCommitsForRepo (fun _ => Except.ok ([] : List Commit)) = [] ∧
    (getCommitsForRepo (fun _ => Except.ok ([] : List Commit))).length ≤
      maxCommitsPerRepo + 99 ∧
    getCommitsLoop (fun _ => Except.ok ([] : List Commit)) 1 1
      [{ sha := "z" }] 5000 = [{ sha := "z" }] := by
  have hb : ∀ p l, (fun _ : Nat => (Except.ok [] : Except ApiError (List Commit))) p =
      Except.ok l → l.length ≤ 100 := by
    intro p l h
    cases h
    simp
  refine ⟨?_, (claim_c8 _ hb).2.2, ?_⟩
  · show getCommitsLoop _ (5000 + 1) 1 [] 0 = []
    exact (claim_c8 _ hb).2.1 5000 1 [] 0 (by decide) rfl
  · show getCommitsLoop _ (0 + 1) 1 [{ sha := "z" }] 5000 = [{ sha := "z" }]
    exact (claim_c8 _ hb).1 0 1 [{ sha := "z" }] 5000 (by decide)

end GhLoc
